import Mathlib

/-!
Shallow embedding of the `ssh-agent-mux` multiplexing session handler
(`src/lib.rs`).  Upstream agents are external processes reached over Unix
sockets; we model the environment as a `World` oracle giving, for each
upstream socket path, the outcome of a connection attempt and of each
timeout-wrapped protocol call.  Every session operation of `impl Session
for MuxAgent` then becomes a pure Lean function of the world, the agent
configuration and the explicit identity-cache state.  Operations that fan
out to upstreams additionally return the list of socket paths they
attempted to contact, so that "no upstream is contacted" properties are
statable.
-/

namespace SshAgentMux

/-- Canonical comparable SSH public key data (`ssh_key::public::KeyData`):
only used as a cache key, so modelled as an abstract comparable value. -/
abbrev PubKeyData := Nat

/-- A filesystem path of an upstream agent socket (`PathBuf`). -/
abbrev SockPath := String

/-- An identity advertised by an upstream agent: public key plus comment. -/
structure Identity where
  pubkey : PubKeyData
  comment : String
deriving DecidableEq, Repr

/-- Opaque signature blob returned by an upstream agent. -/
abbrev Signature := String

/-- The `ssh_agent_lib::error::AgentError` variants this code constructs or
matches on: protocol `Failure`, `Other(message)`, and the I/O-error
variant (named `IOError` here). -/
inductive AgentError where
  | Failure : AgentError
  | Other (msg : String) : AgentError
  | IOError (msg : String) : AgentError
deriving DecidableEq, Repr

instance {ε α : Type} [DecidableEq ε] [DecidableEq α] :
    DecidableEq (Except ε α) := fun a b =>
  match a, b with
  | .ok x, .ok y =>
      if h : x = y then .isTrue (congrArg _ h)
      else .isFalse (fun hh => h (Except.ok.inj hh))
  | .ok _, .error _ => .isFalse Except.noConfusion
  | .error _, .ok _ => .isFalse Except.noConfusion
  | .error x, .error y =>
      if h : x = y then .isTrue (congrArg _ h)
      else .isFalse (fun hh => h (Except.error.inj hh))

/-- Outcome of one `timeout(self.agent_timeout, client.<call>())`:
either the tokio timeout elapsed, or the call returned a protocol-level
`Result`. -/
inductive CallOutcome (α : Type) where
  | timedOut : CallOutcome α
  | returned (r : Except AgentError α) : CallOutcome α
deriving DecidableEq, Repr

/-- A sign request (`ssh_agent_lib::proto::SignRequest`): public key,
data to sign, flags. -/
structure SignRequest where
  pubkey : PubKeyData
  data : String
  flags : Nat
deriving DecidableEq, Repr

/-- An extension request (`ssh_agent_lib::proto::Extension`): name plus
opaque payload. -/
structure Extension where
  name : String
  payload : String
deriving DecidableEq, Repr

/-- An add-identity request (opaque private-key payload plus comment). -/
structure AddIdentity where
  comment : String
deriving DecidableEq, Repr

/-- Outcome of `connect_upstream_agent`'s three fallible stages:
the tokio `UnixStream::connect` bounded by the timeout, its I/O result,
and the `client::connect` wrapping. -/
inductive ConnectOutcome where
  | ok : ConnectOutcome
  | timedOut : ConnectOutcome
  | ioError (msg : String) : ConnectOutcome
  | clientError (msg : String) : ConnectOutcome
deriving DecidableEq, Repr

/-- The environment oracle: for each upstream socket path, the outcome of a
connection attempt and of each timeout-bounded protocol call made to it.
The configured `agent_timeout` is absorbed into these outcomes (`timedOut`
means the call exceeded it). -/
structure World where
  connect : SockPath → ConnectOutcome
  requestIdentitiesCall : SockPath → CallOutcome (List Identity)
  signCall : SockPath → SignRequest → CallOutcome Signature
  lockCall : SockPath → String → CallOutcome Unit
  unlockCall : SockPath → String → CallOutcome Unit
  extensionCall : SockPath → Extension → CallOutcome (Option Unit)
  addIdentityCall : SockPath → AddIdentity → CallOutcome Unit

/-- The identity cache `KnownPubKeysMap = HashMap<PubKeyData, PathBuf>`,
modelled as an association list where `insert` replaces any existing
binding for the key. -/
abbrev KnownPubKeysMap := List (PubKeyData × SockPath)

/-- Model of `HashMap::insert`: replace any existing binding for `k` by `v`. -/
def mapInsert (m : KnownPubKeysMap) (k : PubKeyData) (v : SockPath) :
    KnownPubKeysMap :=
  (k, v) :: m.filter (fun p => p.1 ≠ k)

/-- Model of `HashMap::get`. -/
def mapGet (m : KnownPubKeysMap) (k : PubKeyData) : Option SockPath :=
  (m.find? (fun p => p.1 == k)).map (·.2)

/-- Model of `HashMap::contains_key`. -/
def mapContains (m : KnownPubKeysMap) (k : PubKeyData) : Bool :=
  (mapGet m k).isSome

/-- The multiplexer session handle (`struct MuxAgent`), minus the shared
cache (threaded explicitly) and the timeout (absorbed into `World`). -/
structure MuxAgent where
  socket_paths : List SockPath
  added_keys_sock : Option SockPath

/-- Model of `pubkey.fingerprint(Default::default())`: some canonical
human-loggable digest string of the public key. -/
def fingerprint (pk : PubKeyData) : String :=
  "SHA256:" ++ Nat.repr pk

/-- Embeds `MuxAgent::connect_upstream_agent` (src/lib.rs:255-287): connect to
the upstream socket under the timeout; a timeout yields
`AgentError::Other("Connection to upstream agent timed out: ...")`, an
I/O error is wrapped in `AgentError::IO`, and a client-setup failure in
`AgentError::Other("Failed to connect to agent at ...")`. -/
def connect_upstream_agent (w : World) (sock_path : SockPath) :
    Except AgentError Unit :=
  match w.connect sock_path with
  | .ok => .ok ()
  | .timedOut =>
      .error (.Other ("Connection to upstream agent timed out: " ++ sock_path))
  | .ioError msg => .error (.IOError msg)
  | .clientError msg =>
      .error (.Other ("Failed to connect to agent at " ++ sock_path ++ ": " ++ msg))

/-- One iteration of the `for sock_path in &self.socket_paths` loop of
`MuxAgent::refresh_identities` (src/lib.rs:314-359): on connection
failure, timeout, or per-upstream protocol error the upstream is skipped
(`continue`); on success each returned identity's public key is inserted
into the cache mapped to this socket path, and the identities are appended
to the aggregate list. -/
def refresh_pass (w : World) (acc : List Identity × KnownPubKeysMap)
    (sock_path : SockPath) : List Identity × KnownPubKeysMap :=
  match connect_upstream_agent w sock_path with
  | .error _ => acc
  | .ok _ =>
    match w.requestIdentitiesCall sock_path with
    | .timedOut => acc
    | .returned (.error _) => acc
    | .returned (.ok agent_identities) =>
        (acc.1 ++ agent_identities,
         agent_identities.foldl (fun m id => mapInsert m id.pubkey sock_path) acc.2)

/-- Embeds `MuxAgent::refresh_identities` (src/lib.rs:306-362): clears the cache
(`known_keys.clear()`), then walks the roster in order accumulating
identities and cache entries.  The incoming cache contents `known_keys`
are discarded by the clear; the Rust function's only return is
`Ok(identities)` (every per-upstream failure is a `continue`), so the
result is not `Except`-valued.  Returns (aggregated identities, new cache). -/
def refresh_identities (w : World) (a : MuxAgent)
    (_known_keys : KnownPubKeysMap) : List Identity × KnownPubKeysMap :=
  a.socket_paths.foldl (refresh_pass w) ([], [])

/-- Embeds `Session::request_identities` for `MuxAgent` (src/lib.rs:29-33):
takes the cache lock and performs a full refresh, returning its identity
list.  Result is always `Ok`. -/
def request_identities (w : World) (a : MuxAgent)
    (known_keys : KnownPubKeysMap) :
    Except AgentError (List Identity) × KnownPubKeysMap :=
  let r := refresh_identities w a known_keys
  (.ok r.1, r.2)

/-- Embeds `MuxAgent::get_agent_sock_for_pubkey` (src/lib.rs:289-302): under the
cache lock, if the key is absent refresh the cache first, then look the
key up.  The Rust signature is `Result<Option<PathBuf>>` but
`refresh_identities` never returns `Err`, so the `Ok` is elided here. -/
def get_agent_sock_for_pubkey (w : World) (a : MuxAgent)
    (known_keys : KnownPubKeysMap) (pubkey : PubKeyData) :
    Option SockPath × KnownPubKeysMap :=
  let known_keys :=
    if mapContains known_keys pubkey then known_keys
    else (refresh_identities w a known_keys).2
  (mapGet known_keys pubkey, known_keys)

/-- Embeds `Session::sign` for `MuxAgent` (src/lib.rs:35-65).  Returns the
result, the cache state after the call, and the list of socket paths
contacted for the signing itself (not counting the refresh-on-miss). -/
def sign (w : World) (a : MuxAgent) (known_keys : KnownPubKeysMap)
    (request : SignRequest) :
    Except AgentError Signature × KnownPubKeysMap × List SockPath :=
  match get_agent_sock_for_pubkey w a known_keys request.pubkey with
  | (some agent_sock_path, known_keys) =>
    match connect_upstream_agent w agent_sock_path with
    | .error e => (.error e, known_keys, [agent_sock_path])
    | .ok _ =>
      match w.signCall agent_sock_path request with
      | .timedOut =>
          (.error (.Other ("Sign request timed out on upstream agent: "
             ++ agent_sock_path)), known_keys, [agent_sock_path])
      | .returned r => (r, known_keys, [agent_sock_path])
  | (none, known_keys) =>
      (.error (.Other ("No agent found for public key: "
         ++ fingerprint request.pubkey)), known_keys, [])

/-- The local answer to the `query` extension: the fixed capability list. -/
inductive ExtensionMsg where
  | queryResponse (extensions : List String) : ExtensionMsg
deriving DecidableEq, Repr

/-- One iteration of the `session-bind@openssh.com` broadcast loop
(src/lib.rs:75-109): connection failures, timeouts, upstream `Failure`
(lack of extension support) and any other upstream error are all
`continue`s; any `Ok` response (payload or not) sets the success flag. -/
def session_bind_pass (w : World) (request : Extension) (succeeded : Bool)
    (sock_path : SockPath) : Bool :=
  match connect_upstream_agent w sock_path with
  | .error _ => succeeded
  | .ok _ =>
    match w.extensionCall sock_path request with
    | .timedOut => succeeded
    | .returned (.ok _) => true
    | .returned (.error .Failure) => succeeded
    | .returned (.error _) => succeeded

/-- Embeds `Session::extension` for `MuxAgent` (src/lib.rs:67-118).  `query` is
answered locally with the fixed capability list;
`session-bind@openssh.com` is broadcast over the whole roster with every
per-upstream failure skipped, succeeding with an empty payload iff some
upstream succeeded; any other name fails with `AgentError::Failure`.
The cache is threaded through untouched (the Rust method never reads or
writes `self.known_keys`).  Also returns the socket paths contacted. -/
def extension (w : World) (a : MuxAgent) (known_keys : KnownPubKeysMap)
    (request : Extension) :
    Except AgentError (Option ExtensionMsg) × KnownPubKeysMap × List SockPath :=
  if request.name = "query" then
    (.ok (some (.queryResponse ["session-bind@openssh.com"])), known_keys, [])
  else if request.name = "session-bind@openssh.com" then
    let session_bind_suceeded :=
      a.socket_paths.foldl (session_bind_pass w request) false
    (if session_bind_suceeded then .ok none else .error .Failure,
     known_keys, a.socket_paths)
  else
    (.error .Failure, known_keys, [])

/-- The outcome of attempting `lock` on one upstream: connection errors
propagate, a timeout becomes the dedicated `Other` message, otherwise the
upstream's own result is used. -/
def lockOutcome (w : World) (key : String) (sock_path : SockPath) :
    Except AgentError Unit :=
  match connect_upstream_agent w sock_path with
  | .error e => .error e
  | .ok _ =>
    match w.lockCall sock_path key with
    | .timedOut =>
        .error (.Other ("Lock request timed out on upstream agent: " ++ sock_path))
    | .returned r => r

/-- Same for `unlock`. -/
def unlockOutcome (w : World) (key : String) (sock_path : SockPath) :
    Except AgentError Unit :=
  match connect_upstream_agent w sock_path with
  | .error e => .error e
  | .ok _ =>
    match w.unlockCall sock_path key with
    | .timedOut =>
        .error (.Other ("Unlock request timed out on upstream agent: " ++ sock_path))
    | .returned r => r

/-- The `for sock_path in &self.socket_paths` loop of `Session::lock`
(src/lib.rs:120-141): fail-fast (`??` propagates the first error).
Returns (result, upstreams that accepted the lock, upstreams contacted). -/
def lock_go (w : World) (key : String) :
    List SockPath → Except AgentError Unit × List SockPath × List SockPath
  | [] => (.ok (), [], [])
  | sock_path :: rest =>
    match lockOutcome w key sock_path with
    | .error e => (.error e, [], [sock_path])
    | .ok _ =>
      let r := lock_go w key rest
      (r.1, sock_path :: r.2.1, sock_path :: r.2.2)

/-- Embeds `Session::lock` for `MuxAgent` (src/lib.rs:120-141). -/
def lock (w : World) (a : MuxAgent) (key : String) :
    Except AgentError Unit × List SockPath × List SockPath :=
  lock_go w key a.socket_paths

/-- The loop of `Session::unlock` (src/lib.rs:143-164), same shape. -/
def unlock_go (w : World) (key : String) :
    List SockPath → Except AgentError Unit × List SockPath × List SockPath
  | [] => (.ok (), [], [])
  | sock_path :: rest =>
    match unlockOutcome w key sock_path with
    | .error e => (.error e, [], [sock_path])
    | .ok _ =>
      let r := unlock_go w key rest
      (r.1, sock_path :: r.2.1, sock_path :: r.2.2)

/-- Embeds `Session::unlock` for `MuxAgent` (src/lib.rs:143-164). -/
def unlock (w : World) (a : MuxAgent) (key : String) :
    Except AgentError Unit × List SockPath × List SockPath :=
  unlock_go w key a.socket_paths

/-- Embeds `Session::add_identity` for `MuxAgent` (src/lib.rs:166-194): if an
added-keys socket is configured, forward there under the timeout and
return the upstream's result verbatim; otherwise fail immediately with
`AgentError::Failure`.  Also returns the socket paths contacted. -/
def add_identity (w : World) (a : MuxAgent) (identity : AddIdentity) :
    Except AgentError Unit × List SockPath :=
  match a.added_keys_sock with
  | some added_keys_sock =>
    match connect_upstream_agent w added_keys_sock with
    | .error e => (.error e, [added_keys_sock])
    | .ok _ =>
      match w.addIdentityCall added_keys_sock identity with
      | .timedOut =>
          (.error (.Other ("Add identity request timed out on upstream agent: "
             ++ added_keys_sock)), [added_keys_sock])
      | .returned r => (r, [added_keys_sock])
  | none => (.error .Failure, [])

/-! ### Spec-side characterizations

These definitions follow the specification's wording (an upstream
"answered in that pass", "the last upstream in roster order that
advertised it", "the concatenation of successful upstreams' identity
lists") and are compared with the source-derived functions above. -/

/-- An upstream answered the identity request in this pass: the
connection succeeded and the identities call returned `Ok`. -/
def answers (w : World) (sock_path : SockPath) : Bool :=
  match connect_upstream_agent w sock_path with
  | .error _ => false
  | .ok _ =>
    match w.requestIdentitiesCall sock_path with
    | .returned (.ok _) => true
    | _ => false

/-- The identity list an answering upstream advertised (empty if it did
not answer). -/
def advertisedIds (w : World) (sock_path : SockPath) : List Identity :=
  match connect_upstream_agent w sock_path with
  | .error _ => []
  | .ok _ =>
    match w.requestIdentitiesCall sock_path with
    | .returned (.ok ids) => ids
    | _ => []

/-- An answering upstream advertised public key `k` in this pass. -/
def advertises (w : World) (sock_path : SockPath) (k : PubKeyData) : Bool :=
  answers w sock_path && (advertisedIds w sock_path).any (fun id => id.pubkey == k)

/-- The last upstream in roster order that answered and advertised `k`. -/
def lastOwner (w : World) (roster : List SockPath) (k : PubKeyData) :
    Option SockPath :=
  (roster.filter (fun p => advertises w p k)).getLast?

/-- The concatenation, in roster order, of the identity lists of the
upstreams that answered successfully. -/
def specIdentities (w : World) (roster : List SockPath) : List Identity :=
  (roster.filter (answers w)).flatMap (advertisedIds w)

/-- First option if present, else the default. -/
def orDefault (o d : Option SockPath) : Option SockPath :=
  match o with
  | some p => some p
  | none => d

lemma find?_filter_of_ne (k k' : PubKeyData) (h : k ≠ k') (m : KnownPubKeysMap) :
    (m.filter (fun p => p.1 ≠ k)).find? (fun p => p.1 == k')
      = m.find? (fun p => p.1 == k') := by
  induction m with
  | nil => rfl
  | cons a m ih =>
    rw [List.filter_cons]
    by_cases hak : a.1 = k
    · rw [if_neg (by simp [hak])]
      rw [List.find?_cons_of_neg _ (by simp [hak]; exact h)]
      exact ih
    · rw [if_pos (by simpa using hak)]
      by_cases ha' : a.1 = k'
      · rw [List.find?_cons_of_pos _ (by simpa using ha'),
          List.find?_cons_of_pos _ (by simpa using ha')]
      · rw [List.find?_cons_of_neg _ (by simpa using ha'),
          List.find?_cons_of_neg _ (by simpa using ha')]
        exact ih

lemma mapGet_mapInsert (m : KnownPubKeysMap) (k k' : PubKeyData) (v : SockPath) :
    mapGet (mapInsert m k v) k' = if k = k' then some v else mapGet m k' := by
  unfold mapGet mapInsert
  rcases eq_or_ne k k' with h | h
  · subst h
    rw [if_pos rfl, List.find?_cons_of_pos _ (by simp)]
    rfl
  · rw [if_neg h, List.find?_cons_of_neg _ (by simpa using h),
      find?_filter_of_ne k k' h]

lemma mapGet_insertList (ids : List Identity) (sock : SockPath)
    (m : KnownPubKeysMap) (k : PubKeyData) :
    mapGet (ids.foldl (fun m id => mapInsert m id.pubkey sock) m) k
      = if ids.any (fun id => id.pubkey == k) then some sock else mapGet m k := by
  induction ids generalizing m with
  | nil => simp
  | cons id ids ih =>
    rw [List.foldl_cons, ih]
    by_cases h : ids.any (fun i => i.pubkey == k)
    · simp [h]
    · simp only [h, if_false, List.any_cons, Bool.or_eq_true]
      rw [mapGet_mapInsert]
      by_cases hk : id.pubkey = k
      · simp [hk]
      · simp [hk, h]

lemma advertisedIds_of_not_answers (w : World) (p : SockPath)
    (h : answers w p = false) : advertisedIds w p = [] := by
  unfold answers at h
  unfold advertisedIds
  cases hc : connect_upstream_agent w p with
  | error e => rfl
  | ok u =>
    rw [hc] at h
    cases hr : w.requestIdentitiesCall p with
    | timedOut => rfl
    | returned r =>
      cases r with
      | error e => rfl
      | ok ids => rw [hr] at h; simp at h

lemma refresh_pass_fst (w : World) (acc : List Identity × KnownPubKeysMap)
    (p : SockPath) :
    (refresh_pass w acc p).1 = acc.1 ++ advertisedIds w p := by
  unfold refresh_pass advertisedIds
  cases hc : connect_upstream_agent w p with
  | error e => simp
  | ok u =>
    cases hr : w.requestIdentitiesCall p with
    | timedOut => simp
    | returned r =>
      cases r with
      | error e => simp
      | ok ids => simp

lemma refresh_pass_snd_get (w : World) (acc : List Identity × KnownPubKeysMap)
    (p : SockPath) (k : PubKeyData) :
    mapGet (refresh_pass w acc p).2 k
      = if advertises w p k then some p else mapGet acc.2 k := by
  unfold refresh_pass advertises answers advertisedIds
  cases hc : connect_upstream_agent w p with
  | error e => simp
  | ok u =>
    cases hr : w.requestIdentitiesCall p with
    | timedOut => simp
    | returned r =>
      cases r with
      | error e => simp
      | ok ids => simp [mapGet_insertList]

lemma refresh_foldl_fst (w : World) :
    ∀ (roster : List SockPath) (acc : List Identity × KnownPubKeysMap),
    (roster.foldl (refresh_pass w) acc).1 = acc.1 ++ specIdentities w roster := by
  intro roster
  induction roster with
  | nil => intro acc; simp [specIdentities]
  | cons p ps ih =>
    intro acc
    rw [List.foldl_cons, ih, refresh_pass_fst]
    unfold specIdentities
    rw [List.filter_cons]
    by_cases hp : answers w p
    · rw [if_pos (by simpa using hp), List.flatMap_cons, List.append_assoc]
    · rw [if_neg (by simpa using hp),
        advertisedIds_of_not_answers w p (by simpa using hp)]
      simp [specIdentities]

lemma orDefault_assoc (o d1 d2 : Option SockPath) :
    orDefault (orDefault o d1) d2 = orDefault o (orDefault d1 d2) := by
  cases o <;> rfl

lemma getLast?_cons_eq_orDefault (a : SockPath) (l : List SockPath) :
    (a :: l).getLast? = orDefault l.getLast? (some a) := by
  cases l with
  | nil => rfl
  | cons x xs =>
    rw [List.getLast?_cons_cons]
    cases h : (x :: xs).getLast? with
    | none => exact absurd (List.getLast?_eq_none_iff.mp h) (by simp)
    | some q => rfl

lemma refresh_foldl_snd_get (w : World) (k : PubKeyData) :
    ∀ (roster : List SockPath) (acc : List Identity × KnownPubKeysMap),
    mapGet (roster.foldl (refresh_pass w) acc).2 k
      = orDefault (lastOwner w roster k) (mapGet acc.2 k) := by
  intro roster
  induction roster with
  | nil => intro acc; simp [lastOwner, orDefault]
  | cons p ps ih =>
    intro acc
    rw [List.foldl_cons, ih, refresh_pass_snd_get]
    unfold lastOwner
    rw [List.filter_cons]
    by_cases hp : advertises w p k
    · rw [if_pos (by simpa using hp), if_pos (by simpa using hp),
        getLast?_cons_eq_orDefault, orDefault_assoc]
      rfl
    · rw [if_neg (by simpa using hp), if_neg (by simpa using hp)]

lemma refresh_identities_snd_get (w : World) (a : MuxAgent)
    (m : KnownPubKeysMap) (k : PubKeyData) :
    mapGet (refresh_identities w a m).2 k = lastOwner w a.socket_paths k := by
  unfold refresh_identities
  rw [refresh_foldl_snd_get]
  cases h : lastOwner w a.socket_paths k <;> rfl

lemma request_identities_fst (w : World) (a : MuxAgent)
    (m : KnownPubKeysMap) :
    (request_identities w a m).1
      = Except.ok (specIdentities w a.socket_paths) := by
  show Except.ok (List.foldl (refresh_pass w) ([], []) a.socket_paths).1
        = Except.ok (specIdentities w a.socket_paths)
  rw [refresh_foldl_fst]
  rfl

lemma get_agent_sock_miss (w : World) (a : MuxAgent) (m : KnownPubKeysMap)
    (pk : PubKeyData) (h : mapContains m pk = false) :
    get_agent_sock_for_pubkey w a m pk
      = (lastOwner w a.socket_paths pk, (refresh_identities w a m).2) := by
  unfold get_agent_sock_for_pubkey
  simp only [h, Bool.false_eq_true, if_false]
  rw [refresh_identities_snd_get]

/-- The value `sign` produces when forwarding to the owning upstream `p`
(post-lookup cache `kk`): a proof device mirroring `sign`'s forward arm. -/
def forwardSign (w : World) (req : SignRequest) (kk : KnownPubKeysMap)
    (p : SockPath) :
    Except AgentError Signature × KnownPubKeysMap × List SockPath :=
  match connect_upstream_agent w p with
  | .error e => (.error e, kk, [p])
  | .ok _ =>
    match w.signCall p req with
    | .timedOut =>
        (.error (.Other ("Sign request timed out on upstream agent: "
           ++ p)), kk, [p])
    | .returned r => (r, kk, [p])

def signResultOf (w : World) (req : SignRequest) (kk : KnownPubKeysMap) :
    Option SockPath →
      Except AgentError Signature × KnownPubKeysMap × List SockPath
  | none =>
      (.error (.Other ("No agent found for public key: "
         ++ fingerprint req.pubkey)), kk, [])
  | some p => forwardSign w req kk p

lemma sign_eq (w : World) (a : MuxAgent) (m : KnownPubKeysMap)
    (req : SignRequest) (o : Option SockPath) (kk : KnownPubKeysMap)
    (hg : get_agent_sock_for_pubkey w a m req.pubkey = (o, kk)) :
    sign w a m req = signResultOf w req kk o := by
  unfold sign
  rw [hg]
  cases o <;> rfl

/-- C2: every refresh pass clears the Identity Cache and repopulates it
from the upstreams reachable in that pass: whatever the prior cache
contents `m`, after a refresh a lookup of any key `k` yields exactly the
last upstream in roster order that answered in this pass and advertised
`k` (and `none` when no answering upstream advertised it) — so the cache
holds exactly this pass's advertised keys and no prior entry survives. -/
theorem refresh_rebuilds_cache_wholesale (w : World) (a : MuxAgent)
    (m : KnownPubKeysMap) (k : PubKeyData) :
    mapGet (refresh_identities w a m).2 k = lastOwner w a.socket_paths k :=
  refresh_identities_snd_get w a m k

/-- C3: `request_identities` never returns an error: for every roster and
prior cache state it returns `Ok` of the concatenation, in roster order,
of the identity lists of the upstreams that answered successfully;
upstreams whose connection fails, whose identity request times out, or
which return a protocol error are skipped. -/
theorem request_identities_never_fails (w : World) (a : MuxAgent)
    (m : KnownPubKeysMap) :
    (request_identities w a m).1
      = Except.ok (specIdentities w a.socket_paths) :=
  request_identities_fst w a m

/-- C1: for every sign request, the key is looked up in the cache; on a
miss the lookup is retried after a full refresh (so it then yields the
last answering advertiser of the key in roster order); if still absent
the call fails with a not-found error naming the key's fingerprint and
contacts no upstream for signing; if present, exactly the single owning
upstream is contacted, a connection error or the dedicated timeout error
is surfaced (the timeout error is distinct from the protocol `Failure`),
and otherwise the upstream's own result — signature or error — is
returned with no fallback to any other upstream. -/
theorem sign_contract (w : World) (a : MuxAgent) (m : KnownPubKeysMap)
    (req : SignRequest) :
    (mapContains m req.pubkey = false →
       (get_agent_sock_for_pubkey w a m req.pubkey).1
         = lastOwner w a.socket_paths req.pubkey)
  ∧ ((get_agent_sock_for_pubkey w a m req.pubkey).1 = none →
       (sign w a m req).1 = .error (.Other ("No agent found for public key: "
          ++ fingerprint req.pubkey))
       ∧ (sign w a m req).2.2 = [])
  ∧ (∀ p, (get_agent_sock_for_pubkey w a m req.pubkey).1 = some p →
       (sign w a m req).2.2 = [p]
       ∧ (∀ e, connect_upstream_agent w p = .error e →
            (sign w a m req).1 = .error e)
       ∧ (connect_upstream_agent w p = .ok () →
            (w.signCall p req = .timedOut →
               (sign w a m req).1
                 = .error (.Other ("Sign request timed out on upstream agent: "
                     ++ p))
               ∧ (sign w a m req).1 ≠ .error .Failure)
            ∧ (∀ r, w.signCall p req = .returned r →
                 (sign w a m req).1 = r))) := by
  have hs := sign_eq w a m req
    (get_agent_sock_for_pubkey w a m req.pubkey).1
    (get_agent_sock_for_pubkey w a m req.pubkey).2 rfl
  refine ⟨?_, ?_, ?_⟩
  · intro h
    rw [get_agent_sock_miss w a m req.pubkey h]
  · intro h
    rw [h] at hs
    rw [hs]
    exact ⟨rfl, rfl⟩
  · intro p h
    rw [h] at hs
    refine ⟨?_, ?_, ?_⟩
    · rw [hs]
      show (forwardSign w req _ p).2.2 = [p]
      unfold forwardSign
      cases hc : connect_upstream_agent w p with
      | error e => rfl
      | ok u =>
        cases hr : w.signCall p req with
        | timedOut => rfl
        | returned r => rfl
    · intro e hc
      rw [hs]
      show (forwardSign w req _ p).1 = .error e
      unfold forwardSign
      rw [hc]
    · intro hc
      rw [hs]
      show (w.signCall p req = CallOutcome.timedOut →
          (forwardSign w req _ p).1
            = .error (.Other ("Sign request timed out on upstream agent: " ++ p))
          ∧ (forwardSign w req _ p).1 ≠ .error .Failure)
        ∧ ∀ r, w.signCall p req = CallOutcome.returned r →
            (forwardSign w req _ p).1 = r
      unfold forwardSign
      rw [hc]
      constructor
      · intro ht
        rw [ht]
        exact ⟨rfl, by simp⟩
      · intro r hr
        rw [hr]

lemma lock_go_all_ok (w : World) (key : String) :
    ∀ l : List SockPath, (∀ p ∈ l, lockOutcome w key p = .ok ()) →
      lock_go w key l = (.ok (), l, l) := by
  intro l
  induction l with
  | nil => intro h; rfl
  | cons p ps ih =>
    intro h
    have hp := h p (by simp)
    unfold lock_go
    rw [hp, ih (fun q hq => h q (by simp [hq]))]

lemma lock_go_first_fail (w : World) (key : String) (f : SockPath)
    (e : AgentError) (he : lockOutcome w key f = .error e) :
    ∀ (pre post : List SockPath),
      (∀ p ∈ pre, lockOutcome w key p = .ok ()) →
      lock_go w key (pre ++ f :: post) = (.error e, pre, pre ++ [f]) := by
  intro pre
  induction pre with
  | nil =>
    intro post h
    show lock_go w key (f :: post) = _
    unfold lock_go
    rw [he]
    rfl
  | cons p ps ih =>
    intro post h
    have hp := h p (by simp)
    show lock_go w key (p :: (ps ++ f :: post)) = _
    unfold lock_go
    rw [hp, ih post (fun q hq => h q (by simp [hq]))]
    rfl

lemma unlock_go_all_ok (w : World) (key : String) :
    ∀ l : List SockPath, (∀ p ∈ l, unlockOutcome w key p = .ok ()) →
      unlock_go w key l = (.ok (), l, l) := by
  intro l
  induction l with
  | nil => intro h; rfl
  | cons p ps ih =>
    intro h
    have hp := h p (by simp)
    unfold unlock_go
    rw [hp, ih (fun q hq => h q (by simp [hq]))]

lemma unlock_go_first_fail (w : World) (key : String) (f : SockPath)
    (e : AgentError) (he : unlockOutcome w key f = .error e) :
    ∀ (pre post : List SockPath),
      (∀ p ∈ pre, unlockOutcome w key p = .ok ()) →
      unlock_go w key (pre ++ f :: post) = (.error e, pre, pre ++ [f]) := by
  intro pre
  induction pre with
  | nil =>
    intro post h
    show unlock_go w key (f :: post) = _
    unfold unlock_go
    rw [he]
    rfl
  | cons p ps ih =>
    intro post h
    have hp := h p (by simp)
    show unlock_go w key (p :: (ps ++ f :: post)) = _
    unfold unlock_go
    rw [hp, ih post (fun q hq => h q (by simp [hq]))]
    rfl

/-- C5: `lock` and `unlock` contact upstreams strictly in roster order and
are fail-fast: if every upstream accepts, the call returns `Ok` having
locked (resp. unlocked) the whole roster; if the roster splits as
`pre ++ f :: post` with every upstream in `pre` accepting and `f` failing
(connection failure, timeout, or protocol error), the call returns `f`'s
error, exactly the upstreams in `pre` hold the new state, and exactly
`pre ++ [f]` were contacted — the upstreams in `post` are never reached. -/
theorem lock_unlock_fail_fast (w : World) (a : MuxAgent) (key : String) :
    ((∀ p ∈ a.socket_paths, lockOutcome w key p = .ok ()) →
       lock w a key = (.ok (), a.socket_paths, a.socket_paths))
  ∧ (∀ pre f post e, a.socket_paths = pre ++ f :: post →
       (∀ p ∈ pre, lockOutcome w key p = .ok ()) →
       lockOutcome w key f = .error e →
       lock w a key = (.error e, pre, pre ++ [f]))
  ∧ ((∀ p ∈ a.socket_paths, unlockOutcome w key p = .ok ()) →
       unlock w a key = (.ok (), a.socket_paths, a.socket_paths))
  ∧ (∀ pre f post e, a.socket_paths = pre ++ f :: post →
       (∀ p ∈ pre, unlockOutcome w key p = .ok ()) →
       unlockOutcome w key f = .error e →
       unlock w a key = (.error e, pre, pre ++ [f])) := by
  refine ⟨?_, ?_, ?_, ?_⟩
  · intro h
    exact lock_go_all_ok w key a.socket_paths h
  · intro pre f post e hsplit hpre he
    unfold lock
    rw [hsplit]
    exact lock_go_first_fail w key f e he pre post hpre
  · intro h
    exact unlock_go_all_ok w key a.socket_paths h
  · intro pre f post e hsplit hpre he
    unfold unlock
    rw [hsplit]
    exact unlock_go_first_fail w key f e he pre post hpre

/-- An upstream on which the `session-bind@openssh.com` broadcast counts
as a success: the connection succeeded and the extension call returned
`Ok` before the timeout. -/
def sessionBindSucceeds (w : World) (request : Extension) (p : SockPath) :
    Bool :=
  match connect_upstream_agent w p with
  | .error _ => false
  | .ok _ =>
    match w.extensionCall p request with
    | .returned (.ok _) => true
    | _ => false

lemma session_bind_pass_eq (w : World) (request : Extension) (b : Bool)
    (p : SockPath) :
    session_bind_pass w request b p = (b || sessionBindSucceeds w request p) := by
  unfold session_bind_pass sessionBindSucceeds
  cases hc : connect_upstream_agent w p with
  | error e => simp
  | ok u =>
    cases hr : w.extensionCall p request with
    | timedOut => simp
    | returned r =>
      cases r with
      | ok v => simp
      | error e => cases e <;> simp

lemma session_bind_foldl (w : World) (request : Extension) :
    ∀ (l : List SockPath) (b : Bool),
      l.foldl (session_bind_pass w request) b
        = (b || l.any (sessionBindSucceeds w request)) := by
  intro l
  induction l with
  | nil => intro b; simp
  | cons p ps ih =>
    intro b
    rw [List.foldl_cons, ih, session_bind_pass_eq]
    simp [Bool.or_assoc]

/-- C6: the `session-bind@openssh.com` extension broadcast skips every
per-upstream connection failure, timeout, unsupported-extension response
and other protocol error (the result is fully determined by which
upstreams succeeded); it returns success with an empty payload iff at
least one upstream succeeded and fails with `AgentError::Failure` iff
zero upstreams succeeded.  The cache is untouched. -/
theorem session_bind_broadcast (w : World) (a : MuxAgent)
    (m : KnownPubKeysMap) (req : Extension)
    (h : req.name = "session-bind@openssh.com") :
    extension w a m req
      = (if a.socket_paths.any (sessionBindSucceeds w req) then .ok none
          else .error .Failure, m, a.socket_paths)
  ∧ ((extension w a m req).1 = .ok none
       ↔ ∃ p ∈ a.socket_paths, sessionBindSucceeds w req p = true)
  ∧ ((extension w a m req).1 = .error .Failure
       ↔ ∀ p ∈ a.socket_paths, sessionBindSucceeds w req p = false) := by
  have h1 : extension w a m req
      = (if a.socket_paths.any (sessionBindSucceeds w req) then .ok none
          else .error .Failure, m, a.socket_paths) := by
    unfold extension
    rw [h, if_neg (by decide), if_pos rfl, session_bind_foldl, Bool.false_or]
  refine ⟨h1, ?_, ?_⟩
  · rw [h1]
    by_cases ha : a.socket_paths.any (sessionBindSucceeds w req)
    · simp only [ha, if_true]
      simpa using List.any_eq_true.mp ha
    · simp only [ha, if_false]
      constructor
      · intro hcon; exact absurd hcon (by simp)
      · intro hex
        exact absurd (List.any_eq_true.mpr (by simpa using hex))
          (by simpa using ha)
  · rw [h1]
    by_cases ha : a.socket_paths.any (sessionBindSucceeds w req)
    · simp only [ha, if_true]
      constructor
      · intro hcon; exact absurd hcon (by simp)
      · intro hall
        obtain ⟨p, hp, hs⟩ := List.any_eq_true.mp ha
        rw [hall p hp] at hs
        exact absurd hs (by simp)
    · simp only [ha, if_false]
      constructor
      · intro _
        intro p hp
        by_contra hcon
        exact absurd (List.any_eq_true.mpr
          ⟨p, hp, by simpa using hcon⟩) (by simpa using ha)
      · intro _; rfl

/-- The value `add_identity` produces when forwarding to the configured
added-keys upstream `t`: a proof device mirroring its forward arm. -/
def forwardAdd (w : World) (id : AddIdentity) (t : SockPath) :
    Except AgentError Unit × List SockPath :=
  match connect_upstream_agent w t with
  | .error e => (.error e, [t])
  | .ok _ =>
    match w.addIdentityCall t id with
    | .timedOut =>
        (.error (.Other ("Add identity request timed out on upstream agent: "
           ++ t)), [t])
    | .returned r => (r, [t])

lemma add_identity_eq (w : World) (a : MuxAgent) (id : AddIdentity)
    (t : SockPath) (h : a.added_keys_sock = some t) :
    add_identity w a id = forwardAdd w id t := by
  unfold add_identity forwardAdd
  rw [h]

/-- C7: if a forwarding target is configured, `add_identity` contacts
exactly that single upstream under the timeout and returns its result —
success or failure — verbatim (timeouts get the dedicated message); if no
target is configured, the call fails immediately with the not-configured
`AgentError::Failure` and contacts no upstream. -/
theorem add_identity_contract (w : World) (a : MuxAgent) (id : AddIdentity) :
    (a.added_keys_sock = none →
       add_identity w a id = (.error .Failure, []))
  ∧ (∀ t, a.added_keys_sock = some t →
       (add_identity w a id).2 = [t]
       ∧ (∀ e, connect_upstream_agent w t = .error e →
            (add_identity w a id).1 = .error e)
       ∧ (connect_upstream_agent w t = .ok () →
            (w.addIdentityCall t id = .timedOut →
               (add_identity w a id).1 = .error (.Other
                 ("Add identity request timed out on upstream agent: " ++ t)))
            ∧ (∀ r, w.addIdentityCall t id = .returned r →
                 (add_identity w a id).1 = r))) := by
  constructor
  · intro h
    unfold add_identity
    rw [h]
  · intro t h
    have hs := add_identity_eq w a id t h
    refine ⟨?_, ?_, ?_⟩
    · rw [hs]
      unfold forwardAdd
      cases hc : connect_upstream_agent w t with
      | error e => rfl
      | ok u =>
        cases hr : w.addIdentityCall t id with
        | timedOut => rfl
        | returned r => rfl
    · intro e hc
      rw [hs]
      unfold forwardAdd
      rw [hc]
    · intro hc
      rw [hs]
      unfold forwardAdd
      rw [hc]
      constructor
      · intro ht
        rw [ht]
      · intro r hr
        rw [hr]

/-- C8: an extension request named `query` is answered locally with
exactly the fixed capability list `{"session-bind@openssh.com"}`, and an
extension request with any name other than `query` and
`session-bind@openssh.com` fails immediately with `AgentError::Failure`;
in both cases no upstream is contacted and the cache is returned
untouched. -/
theorem extension_local_dispatch (w : World) (a : MuxAgent)
    (m : KnownPubKeysMap) (req : Extension) :
    (req.name = "query" →
       extension w a m req
         = (.ok (some (.queryResponse ["session-bind@openssh.com"])), m, []))
  ∧ (req.name ≠ "query" → req.name ≠ "session-bind@openssh.com" →
       extension w a m req = (.error .Failure, m, [])) := by
  constructor
  · intro h
    unfold extension
    rw [if_pos h]
  · intro h1 h2
    unfold extension
    rw [if_neg h1, if_neg h2]

/-- C10: with an empty upstream roster the two broadcast operations
diverge: `lock` and `unlock` succeed vacuously while the
`session-bind@openssh.com` extension fails with `AgentError::Failure`
(zero upstreams succeeded); no upstream is contacted in either case
(the contacted lists are empty). -/
theorem empty_roster_divergence (w : World) (ak : Option SockPath)
    (m : KnownPubKeysMap) (key payload : String) :
    lock w ⟨[], ak⟩ key = (.ok (), [], [])
  ∧ unlock w ⟨[], ak⟩ key = (.ok (), [], [])
  ∧ extension w ⟨[], ak⟩ m ⟨"session-bind@openssh.com", payload⟩
      = (.error .Failure, m, []) := by
  exact ⟨rfl, rfl, rfl⟩

lemma answers_of_advertises (w : World) (p : SockPath) (k : PubKeyData)
    (h : advertises w p k = true) : answers w p = true := by
  unfold advertises at h
  exact ((Bool.and_eq_true _ _).mp h).1

lemma mem_map_pubkey_of_advertises (w : World) (p : SockPath)
    (k : PubKeyData) (h : advertises w p k = true) :
    k ∈ (advertisedIds w p).map Identity.pubkey := by
  unfold advertises at h
  have h2 := ((Bool.and_eq_true _ _).mp h).2
  obtain ⟨id, hid, hk⟩ := List.any_eq_true.mp h2
  exact List.mem_map.mpr ⟨id, hid, by simpa using hk⟩

lemma two_le_sum_map {α : Type} (f : α → ℕ) :
    ∀ (l : List α) (p q : α), p ∈ l → q ∈ l → p ≠ q →
      1 ≤ f p → 1 ≤ f q → 2 ≤ (l.map f).sum := by
  intro l
  induction l with
  | nil => intro p q hp _ _ _ _; simp at hp
  | cons a t ih =>
    intro p q hp hq hpq h1 h2
    rw [List.map_cons, List.sum_cons]
    rcases List.mem_cons.mp hp with rfl | hp'
    · have hq' : q ∈ t := by
        rcases List.mem_cons.mp hq with h | h
        · exact absurd h.symm hpq
        · exact h
      have hle : f q ≤ (t.map f).sum :=
        List.single_le_sum (by simp) _ (List.mem_map.mpr ⟨q, hq', rfl⟩)
      omega
    · rcases List.mem_cons.mp hq with rfl | hq'
      · have hle : f p ≤ (t.map f).sum :=
          List.single_le_sum (by simp) _ (List.mem_map.mpr ⟨p, hp', rfl⟩)
        omega
      · have := ih p q hp' hq' hpq h1 h2
        omega

lemma count_specIdentities_two (w : World) (roster : List SockPath)
    (k : PubKeyData) (p q : SockPath) (hp : p ∈ roster) (hq : q ∈ roster)
    (hpq : p ≠ q) (hap : advertises w p k = true)
    (haq : advertises w q k = true) :
    2 ≤ ((specIdentities w roster).map Identity.pubkey).count k := by
  unfold specIdentities
  rw [List.map_flatMap, List.count_flatMap]
  apply two_le_sum_map _ _ p q
  · exact List.mem_filter.mpr ⟨hp, answers_of_advertises w p k hap⟩
  · exact List.mem_filter.mpr ⟨hq, answers_of_advertises w q k haq⟩
  · exact hpq
  · exact List.count_pos_iff.mpr (mem_map_pubkey_of_advertises w p k hap)
  · exact List.count_pos_iff.mpr (mem_map_pubkey_of_advertises w q k haq)

/-- A concrete world in which upstreams "a" and "b" are both reachable
and both advertise public key 1. -/
def wDup : World where
  connect := fun _ => .ok
  requestIdentitiesCall := fun p => .returned (.ok [⟨1, "key-" ++ p⟩])
  signCall := fun _ _ => .timedOut
  lockCall := fun _ _ => .returned (.ok ())
  unlockCall := fun _ _ => .returned (.ok ())
  extensionCall := fun _ _ => .returned (.ok none)
  addIdentityCall := fun _ _ => .returned (.ok ())

/-- A two-upstream roster over `wDup`. -/
def aDup : MuxAgent := ⟨["a", "b"], none⟩

/-- C4 counterexample: with upstreams "a" and "b" both reachable and both
advertising public key 1, list-identities returns both entries, so the
returned identity list does contain duplicates by public key — refuting
the claim's no-duplicates part (the last-upstream-wins cache part does
hold). -/
theorem list_identities_dedup_counterexample :
    advertises wDup "a" 1 = true ∧ advertises wDup "b" 1 = true
    ∧ ("a" : SockPath) ≠ "b"
    ∧ (request_identities wDup aDup []).1
        = .ok [⟨1, "key-a"⟩, ⟨1, "key-b"⟩]
    ∧ ¬ (List.map Identity.pubkey
          [⟨1, "key-a"⟩, (⟨1, "key-b"⟩ : Identity)]).Nodup := by
  refine ⟨by decide, by decide, by decide, by decide, by decide⟩

/-- C4 amended: when two distinct reachable upstreams advertise the same
public key, the identity list returned by list-identities keeps one entry
per advertising upstream (so the key occurs at least twice — duplicates
by public key are not removed), and the cache path recorded for the
duplicated key is that of the last upstream in roster order that
advertised it. -/
theorem list_identities_last_wins (w : World) (a : MuxAgent)
    (m : KnownPubKeysMap) (k : PubKeyData) (p q : SockPath)
    (hp : p ∈ a.socket_paths) (hq : q ∈ a.socket_paths) (hpq : p ≠ q)
    (hap : advertises w p k = true) (haq : advertises w q k = true) :
    (request_identities w a m).1 = .ok (specIdentities w a.socket_paths)
    ∧ 2 ≤ ((specIdentities w a.socket_paths).map Identity.pubkey).count k
    ∧ mapGet (request_identities w a m).2 k = lastOwner w a.socket_paths k := by
  refine ⟨request_identities_fst w a m, ?_, ?_⟩
  · exact count_specIdentities_two w a.socket_paths k p q hp hq hpq hap haq
  · show mapGet (refresh_identities w a m).2 k = lastOwner w a.socket_paths k
    exact refresh_identities_snd_get w a m k

/-- A concrete world for witnesses: upstream "a" advertises key 1 and
upstream "b" advertises key 2; "a" reports the session-bind extension as
unsupported while "b" accepts it; "c" refuses connections; every other
call succeeds. -/
def wMix : World where
  connect := fun p => if p = "c" then .ioError "connection refused" else .ok
  requestIdentitiesCall := fun p =>
    .returned (.ok (if p = "a" then [⟨1, "id-a"⟩] else [⟨2, "id-b"⟩]))
  signCall := fun p r =>
    .returned (.ok ("sig-" ++ p ++ "-" ++ Nat.repr r.pubkey))
  lockCall := fun _ _ => .returned (.ok ())
  unlockCall := fun _ _ => .returned (.ok ())
  extensionCall := fun p _ =>
    if p = "a" then .returned (.error .Failure) else .returned (.ok none)
  addIdentityCall := fun _ _ => .returned (.ok ())

/-- A two-upstream roster over `wMix`, forwarding added keys to "b". -/
def aMix : MuxAgent := ⟨["a", "b"], some "b"⟩

/-- Witness for `sign_contract`: concrete cache-miss sign for key 2 is
routed to its single owner "b" and returns b's signature. -/
theorem sign_contract_witness :
    (get_agent_sock_for_pubkey wMix aMix [] 2).1 = some "b"
    ∧ (sign wMix aMix [] ⟨2, "data", 0⟩).2.2 = ["b"]
    ∧ (sign wMix aMix [] ⟨2, "data", 0⟩).1 = .ok "sig-b-2" :=
  ⟨by decide,
   ((sign_contract wMix aMix [] ⟨2, "data", 0⟩).2.2 "b" (by decide)).1,
   (((sign_contract wMix aMix [] ⟨2, "data", 0⟩).2.2 "b"
       (by decide)).2.2 (by decide)).2 (.ok "sig-b-2") (by decide)⟩

/-- Witness for `lock_unlock_fail_fast`: with roster ["a","b","c"] where
"c" refuses connections, lock fails with c's connection error having
locked exactly ["a","b"]; with roster ["a","b"] unlock succeeds on all. -/
theorem lock_unlock_fail_fast_witness :
    lock wMix ⟨["a", "b", "c"], none⟩ "pw"
      = (.error (.IOError "connection refused"), ["a", "b"], ["a", "b", "c"])
    ∧ unlock wMix ⟨["a", "b"], none⟩ "pw"
      = (.ok (), ["a", "b"], ["a", "b"]) :=
  ⟨(lock_unlock_fail_fast wMix ⟨["a", "b", "c"], none⟩ "pw").2.1
     ["a", "b"] "c" [] (.IOError "connection refused")
     (by decide) (by decide) (by decide),
   (lock_unlock_fail_fast wMix ⟨["a", "b"], none⟩ "pw").2.2.1 (by decide)⟩

/-- Witness for `session_bind_broadcast`: "a" answers the session-bind
extension with `Failure` (unsupported) and is skipped, "b" succeeds, so
the broadcast returns success with an empty payload. -/
theorem session_bind_broadcast_witness :
    extension wMix aMix [] ⟨"session-bind@openssh.com", "pl"⟩
      = (.ok none, [], ["a", "b"]) := by
  have h := (session_bind_broadcast wMix aMix []
    ⟨"session-bind@openssh.com", "pl"⟩ rfl).1
  rw [h]
  decide

/-- Witness for `add_identity_contract`: with no forwarding target the
call fails immediately contacting nobody; with target "b" the request is
forwarded to exactly "b" and its success is returned verbatim. -/
theorem add_identity_contract_witness :
    add_identity wMix ⟨["a"], none⟩ ⟨"new-key"⟩ = (.error .Failure, [])
    ∧ (add_identity wMix aMix ⟨"new-key"⟩).1 = .ok ()
    ∧ (add_identity wMix aMix ⟨"new-key"⟩).2 = ["b"] :=
  ⟨(add_identity_contract wMix ⟨["a"], none⟩ ⟨"new-key"⟩).1 rfl,
   (((add_identity_contract wMix aMix ⟨"new-key"⟩).2 "b" rfl).2.2
      (by decide)).2 (.ok ()) (by decide),
   ((add_identity_contract wMix aMix ⟨"new-key"⟩).2 "b" rfl).1⟩

/-- Witness for `extension_local_dispatch`: a `query` request is answered
locally with the fixed capability list, and an unknown extension name
fails immediately; neither contacts any upstream. -/
theorem extension_local_dispatch_witness :
    extension wMix aMix [] ⟨"query", ""⟩
      = (.ok (some (.queryResponse ["session-bind@openssh.com"])), [], [])
    ∧ extension wMix aMix [] ⟨"exotic", ""⟩ = (.error .Failure, [], []) :=
  ⟨(extension_local_dispatch wMix aMix [] ⟨"query", ""⟩).1 rfl,
   (extension_local_dispatch wMix aMix [] ⟨"exotic", ""⟩).2
     (by decide) (by decide)⟩

/-- Witness for `list_identities_last_wins` at the concrete
duplicate-key world: "a" and "b" both advertise key 1. -/
theorem list_identities_last_wins_witness :
    (request_identities wDup aDup []).1
      = .ok (specIdentities wDup aDup.socket_paths)
    ∧ 2 ≤ ((specIdentities wDup aDup.socket_paths).map Identity.pubkey).count 1
    ∧ mapGet (request_identities wDup aDup []).2 1
        = lastOwner wDup aDup.socket_paths 1 :=
  list_identities_last_wins wDup aDup [] 1 "a" "b"
    (by decide) (by decide) (by decide) (by decide) (by decide)

end SshAgentMux
